import Mathlib

/-!
Shallow embedding of the texture/staging core of `src/igl/vulkan/Texture.cpp`
(namespace `igl::vulkan`).  Pure data is translated into Lean structures;
the stateful staging calls (`imageData2D`, `imageData3D`) are modelled as a
list of transfer records returned alongside the `Result` code.  Machine
integers are modelled as `Nat` (no overflow is relevant to the verified
properties: all checked quantities are small counts and byte sizes).
Helpers of the repository that are declared or called here but whose bodies
are outside the given sources (`TextureDesc::calcNumMipLevels`,
`validateRange`, `getTextureBytesPerSlice`, the `TextureCubeFace` enum) are
modelled from the spec and marked as such in their doc comments.
-/

namespace Igl

/-- Texture types accepted by `Texture::create` (`igl::TextureType`);
the source's switch handles exactly TwoD, ThreeD and Cube. -/
inductive TextureType
  | TwoD
  | ThreeD
  | Cube
deriving DecidableEq, Repr

/-- Vulkan image types chosen by the switch in `Texture::create`
(`VK_IMAGE_TYPE_2D` / `VK_IMAGE_TYPE_3D`). -/
inductive VkImageType
  | i2D
  | i3D
deriving DecidableEq, Repr

/-- Vulkan image-view types chosen by the switch in `Texture::create`. -/
inductive VkImageViewType
  | t2D
  | t3D
  | tCube
deriving DecidableEq, Repr

/-- Resource storage classes (`igl::ResourceStorage`); the only distinction
the translated code makes is `Private` versus everything else. -/
inductive ResourceStorage
  | Private
  | Shared
deriving DecidableEq, Repr

/-- Image aspect used for views: depth versus color
(`VK_IMAGE_ASPECT_DEPTH_BIT` / `VK_IMAGE_ASPECT_COLOR_BIT`). -/
inductive Aspect
  | color
  | depth
deriving DecidableEq, Repr

/-- Result codes.  `Ok`, `ArgumentOutOfRange`, `Unimplemented` and
`InvalidOperation` appear in the source (`igl::Result::Code`);
`RangeOutOfBounds` is the spec's name for the error produced by
`validateRange` (whose body is outside the given sources). -/
inductive ResultCode
  | Ok
  | ArgumentOutOfRange
  | Unimplemented
  | InvalidOperation
  | RangeOutOfBounds
deriving DecidableEq, Repr

/-- Properties of a pixel format that the translated code queries through
the format helpers (`isCompressedTextureFormat`, `toBytesPerBlock`,
`getBytesPerPixel`, `isDepthOrStencilFormat`), all of which live outside
the given sources.  Modelled from the spec: the Format Translator is a
pure mapping providing compressed/depth-stencil detection and
byte-per-pixel / byte-per-block computation. -/
structure FormatProps where
  isCompressed : Bool
  isDepthOrStencil : Bool
  bytesPerPixel : Nat
  bytesPerBlock : Nat
deriving DecidableEq, Repr

/-- Usage bit-set of a texture (`TextureDesc::TextureUsageBits`), modelled
as one flag per bit: Sampled, Storage, Attachment. -/
structure TextureUsage where
  sampledBit : Bool
  storageBit : Bool
  attachmentBit : Bool
deriving DecidableEq, Repr

/-- The empty usage bit-set check (`desc_.usage == 0` in the source). -/
def TextureUsage.isEmpty (u : TextureUsage) : Bool :=
  !u.sampledBit && !u.storageBit && !u.attachmentBit

/-- The usage value `TextureDesc::TextureUsageBits::Sampled` substituted by
`Texture::create` for an empty usage set. -/
def TextureUsage.sampledOnly : TextureUsage :=
  ⟨true, false, false⟩

/-- The texture descriptor (`igl::TextureDesc`): the fields read by the
translated code. -/
structure TextureDesc where
  type : TextureType
  format : FormatProps
  width : Nat
  height : Nat
  depth : Nat
  numLayers : Nat
  numMipLevels : Nat
  numSamples : Nat
  usage : TextureUsage
  storage : ResourceStorage
deriving DecidableEq, Repr

/-- Ceiling of the base-2 logarithm, written with explicit fuel so that it
is structurally recursive (the fuel `n` suffices because the argument at
least halves each step). -/
def ceilLog2Aux : Nat → Nat → Nat
  | 0, _ => 0
  | fuel + 1, n => if n ≤ 1 then 0 else ceilLog2Aux fuel ((n + 1) / 2) + 1

/-- Ceiling of the base-2 logarithm (0 for arguments below 2). -/
def ceilLog2 (n : Nat) : Nat :=
  ceilLog2Aux n n

/-- Modelled from the spec: `TextureDesc::calcNumMipLevels` is outside the
given sources; §3 bounds the mip-level count by
`ceil(log2(max(width,height))) + 1`. -/
def calcNumMipLevels (width height : Nat) : Nat :=
  ceilLog2 (max width height) + 1

/-- The `VkImageType` selected for each `TextureType` by the switch in
`Texture::create` (TwoD and Cube map to 2D images, ThreeD to 3D). -/
def TextureType.toVkImageType : TextureType → VkImageType
  | .TwoD => .i2D
  | .ThreeD => .i3D
  | .Cube => .i2D

/-- The arguments `Texture::create` passes to `ctx.createImage` (plus the
view type and the aspect of the primary image view it creates right
after); this record stands for the allocated device image. -/
structure ImageCreateInfo where
  imageType : VkImageType
  width : Nat
  height : Nat
  depth : Nat
  numMipLevels : Nat
  arrayLayerCount : Nat
  usageTransferDst : Bool
  usageSampled : Bool
  usageStorage : Bool
  usageColorAttachment : Bool
  usageDepthStencilAttachment : Bool
  usageTransferSrc : Bool
  cubeCompatible : Bool
  samples : Nat
  viewType : VkImageViewType
  aspect : Aspect
deriving DecidableEq, Repr

/-- Builds the `ImageCreateInfo` exactly as the tail of `Texture::create`
does: usage flags from the usage bit-set and storage class, then the
switch on the texture type (layer count ×6 and cube-compatible flag for
Cube; samples taken from the descriptor only for TwoD, left at
`VK_SAMPLE_COUNT_1_BIT` otherwise), then the aspect for the primary view.
`sampleFlags` stands for `getVulkanSampleCountFlags`, which is outside the
given sources. -/
def mkImageCreateInfo (sampleFlags : Nat → Nat) (d : TextureDesc) : ImageCreateInfo :=
  let transferDst := d.storage = ResourceStorage.Private
  let depthStencilAtt := d.usage.attachmentBit ∧ d.format.isDepthOrStencil
  let colorAtt := d.usage.attachmentBit ∧ ¬d.format.isDepthOrStencil
  let aspect : Aspect := if depthStencilAtt then .depth else .color
  let base : ImageCreateInfo :=
    { imageType := .i2D
      width := d.width
      height := d.height
      depth := d.depth
      numMipLevels := d.numMipLevels
      arrayLayerCount := d.numLayers
      usageTransferDst := transferDst
      usageSampled := d.usage.sampledBit
      usageStorage := d.usage.storageBit
      usageColorAttachment := colorAtt
      usageDepthStencilAttachment := depthStencilAtt
      usageTransferSrc := true
      cubeCompatible := false
      samples := 1
      viewType := .t2D
      aspect := aspect }
  match d.type with
  | .TwoD => { base with imageType := .i2D, viewType := .t2D, samples := sampleFlags d.numSamples }
  | .ThreeD => { base with imageType := .i3D, viewType := .t3D }
  | .Cube =>
      { base with imageType := .i2D, viewType := .tCube,
                  arrayLayerCount := d.numLayers * 6, cubeCompatible := true }

/-- What `Texture::create` leaves behind: the result code, the final value
of the member `desc_` (which the getters `getNumMipLevels`, `getUsage`, …
read), and the device image if one was created. -/
structure CreateOutput where
  result : ResultCode
  desc : TextureDesc
  image : Option ImageCreateInfo
deriving Repr

/-- The zero-mip normalization of `Texture::create` (lines 41–44):
`desc_.numMipLevels = 1` is assigned when the requested count is 0. -/
def normalizeMipCount (desc : TextureDesc) : TextureDesc :=
  if desc.numMipLevels = 0 then { desc with numMipLevels := 1 } else desc

/-- The empty-usage normalization of `Texture::create` (lines 63–66):
`desc_.usage` is set to Sampled when the requested bit-set is empty. -/
def normalizeUsage (d : TextureDesc) : TextureDesc :=
  if d.usage.isEmpty then { d with usage := TextureUsage.sampledOnly } else d

/-- Translation of `Texture::create`.  `desc_` is first assigned the
argument; the type check (lines 35–39) always passes because the modelled
`TextureType` is closed over TwoD/ThreeD/Cube; a zero mip-level count is
normalized to 1; the two multisampling checks and the mip-bound check may
fail with `ArgumentOutOfRange`; an empty usage set is normalized to
Sampled; finally the image is created.  The external allocator
(`ctx.createImage`) is modelled as succeeding and returning the record of
its arguments. -/
def Texture.create (sampleFlags : Nat → Nat) (desc : TextureDesc) : CreateOutput :=
  if desc.numSamples > 1 ∧ (normalizeMipCount desc).numMipLevels ≠ 1 then
    ⟨.ArgumentOutOfRange, normalizeMipCount desc, none⟩
  else if desc.numSamples > 1 ∧ (normalizeMipCount desc).type = .ThreeD then
    ⟨.ArgumentOutOfRange, normalizeMipCount desc, none⟩
  else if ¬ (normalizeMipCount desc).numMipLevels ≤
      calcNumMipLevels (normalizeMipCount desc).width
        (normalizeMipCount desc).height then
    ⟨.ArgumentOutOfRange, normalizeMipCount desc, none⟩
  else
    ⟨.Ok, normalizeUsage (normalizeMipCount desc),
      some (mkImageCreateInfo sampleFlags (normalizeUsage (normalizeMipCount desc)))⟩

/-- Getter `Texture::getNumMipLevels`, reading the stored `desc_`. -/
def CreateOutput.getNumMipLevels (o : CreateOutput) : Nat :=
  o.desc.numMipLevels

/-- Getter `Texture::getUsage`, reading the stored `desc_`. -/
def CreateOutput.getUsage (o : CreateOutput) : TextureUsage :=
  o.desc.usage

/-- A texture as used by `upload` / `uploadCube`: the stored descriptor
`desc_`.  The image type consulted by `upload`
(`texture_->getVulkanImage().type_`) is the one the switch in
`Texture::create` selects, i.e. `desc.type.toVkImageType`. -/
structure Texture where
  desc : TextureDesc
deriving Repr

/-- The per-call upload region (`igl::TextureRangeDesc`): the fields read
by the translated code. -/
structure TextureRangeDesc where
  x : Nat
  y : Nat
  z : Nat
  width : Nat
  height : Nat
  depth : Nat
  layer : Nat
  numLayers : Nat
  mipLevel : Nat
  numMipLevels : Nat
deriving DecidableEq, Repr

/-- Modelled from the spec: dimension of the image at a given mip level
(each level halves the base dimension, clamped to a minimum of 1). -/
def dimAtMip (n level : Nat) : Nat :=
  max (n / 2 ^ level) 1

/-- Modelled from the spec: the layer count of the image, multiplied by 6
for cube textures (§3, UploadRange invariant). -/
def TextureDesc.layerCount (d : TextureDesc) : Nat :=
  d.numLayers * (if d.type = TextureType.Cube then 6 else 1)

/-- Modelled from the spec: the UploadRange invariant of §3 — offset plus
extent must not exceed the image's dimensions at the addressed mip level,
and layer plus layer count must not exceed the image's layer count (×6 for
cube). -/
def rangeInBounds (d : TextureDesc) (r : TextureRangeDesc) : Bool :=
  decide (r.x + r.width ≤ dimAtMip d.width r.mipLevel) &&
  decide (r.y + r.height ≤ dimAtMip d.height r.mipLevel) &&
  decide (r.z + r.depth ≤ dimAtMip d.depth r.mipLevel) &&
  decide (r.layer + r.numLayers ≤ d.layerCount)

/-- Modelled from the spec: `Texture::validateRange` is outside the given
sources; §4.3 rejects with `RangeOutOfBounds` exactly when the range
escapes the UploadRange invariant. -/
def validateRange (d : TextureDesc) (r : TextureRangeDesc) : ResultCode :=
  if rangeInBounds d r then .Ok else .RangeOutOfBounds

/-- The source pointer actually handed to the staging device for one
transfer: a passed-through null pointer, the caller's buffer at a byte
offset ("aligned" path), or the repacked tightly-packed temporary buffer
(`linearData`, "unaligned" path) together with the byte offset in the
caller's buffer its rows were read from. -/
inductive UploadSrc
  | null
  | direct (off : Nat)
  | packed (base : Nat) (bytes : List UInt8)
deriving DecidableEq, Repr

/-- One recorded staging transfer: the arguments of
`VulkanStagingDevice::imageData3D` (offset, extent, data) or
`VulkanStagingDevice::imageData2D` (region, mip level, mip-level span,
layer, data).  The image and the fixed `getVkFormat()` argument are
omitted: they are the same for every record of one call. -/
inductive Transfer
  | data3D (x y z width height depth : Nat) (src : UploadSrc)
  | data2D (x y width height : Nat) (mipLevel numMipLevels layer : Nat) (src : UploadSrc)
deriving DecidableEq, Repr

/-- The destination layer of a recorded 2D transfer. -/
def Transfer.layerOf : Transfer → Option Nat
  | .data2D _ _ _ _ _ _ layer _ => some layer
  | .data3D _ _ _ _ _ _ _ => none

/-- The `UploadSrc` of a recorded transfer. -/
def Transfer.srcOf : Transfer → UploadSrc
  | .data2D _ _ _ _ _ _ _ src => src
  | .data3D _ _ _ _ _ _ src => src

/-- The byte offset in the caller's buffer at which a transfer's source
bytes start (`none` for a passed-through null pointer). -/
def UploadSrc.base? : UploadSrc → Option Nat
  | .null => none
  | .direct off => some off
  | .packed base _ => some base

/-- The row-repacking loop of the unaligned path of `Texture::upload`:
for each of the `rows` (= `desc_.height`) rows, copy `rowWidth`
(= `imageRowWidth`) bytes from the current source pointer (offset `base`)
advanced by `h * stride` (= `h * bytesPerRow`) into the tight buffer. -/
def repack (src : Nat → UInt8) (base rows rowWidth stride : Nat) : List UInt8 :=
  (List.range rows).flatMap fun h =>
    (List.range rowWidth).map fun k => src (base + h * stride + k)

/-- The per-pixel byte size computed by `upload` (lines 176–178): bytes
per block for a compressed format, bytes per pixel otherwise. -/
def uploadBytesPerPixel (d : TextureDesc) : Nat :=
  if d.format.isCompressed then d.format.bytesPerBlock else d.format.bytesPerPixel

/-- The tightly-packed row width of `upload` (line 180):
`imageRowWidth = desc_.width * bytesPerPixel`. -/
def imageRowWidth (d : TextureDesc) : Nat :=
  d.width * uploadBytesPerPixel d

/-- The aligned-path test of `upload` (lines 184–185): compressed format,
unspecified stride, or stride equal to the packed row width. -/
def uploadIsAligned (d : TextureDesc) (bytesPerRow : Nat) : Bool :=
  d.format.isCompressed || decide (bytesPerRow = 0) ||
    decide (imageRowWidth d = bytesPerRow)

/-- The per-layer source-pointer increment of `upload` (lines 191–201):
the slice size at mip 0 when more than one layer is uploaded, plus the
slice sizes at mips 1 … numMipLevels−1 when more than one mip level is
spanned.  `slice` stands for `getTextureBytesPerSlice` (outside the given
sources), already applied to the fixed `desc_.format` argument. -/
def uploadByteIncrement (slice : Nat → Nat → Nat → Nat → Nat)
    (range : TextureRangeDesc) : Nat :=
  (if max range.numLayers 1 > 1 then
      slice range.width range.height range.depth 0
    else 0) +
  (List.range' 1 (range.numMipLevels - 1)).foldl
    (fun acc i => acc + slice range.width range.height range.depth i) 0

/-- The source handed to the staging device in loop iteration `i` of
`upload` (lines 203–214): the caller's pointer advanced by
`i * byteIncrement` on the aligned path, or the repacked tight buffer
(filled from that advanced pointer) on the unaligned path. -/
def uploadLayerSrc (tex : Texture) (slice : Nat → Nat → Nat → Nat → Nat)
    (range : TextureRangeDesc) (src : Nat → UInt8) (bytesPerRow i : Nat) :
    UploadSrc :=
  if uploadIsAligned tex.desc bytesPerRow then
    .direct (i * uploadByteIncrement slice range)
  else
    .packed (i * uploadByteIncrement slice range)
      (repack src (i * uploadByteIncrement slice range) tex.desc.height
        (imageRowWidth tex.desc) bytesPerRow)

/-- The staging transfer recorded in loop iteration `i` of `upload`
(lines 216–239): a full-region 3D copy when the image's type is
volumetric, otherwise a 2D copy at mip `range.mipLevel`, span
`range.numMipLevels`, layer `range.layer + i`. -/
def uploadLayerTransfer (tex : Texture) (slice : Nat → Nat → Nat → Nat → Nat)
    (range : TextureRangeDesc) (src : Nat → UInt8) (bytesPerRow i : Nat) :
    Transfer :=
  if tex.desc.type.toVkImageType = VkImageType.i3D then
    .data3D range.x range.y range.z range.width range.height range.depth
      (uploadLayerSrc tex slice range src bytesPerRow i)
  else
    .data2D range.x range.y range.width range.height
      range.mipLevel range.numMipLevels (range.layer + i)
      (uploadLayerSrc tex slice range src bytesPerRow i)

/-- Translation of `Texture::upload`.  The caller's data pointer is
`none` for a null pointer, otherwise a byte-addressable view of memory
from the pointer on.  A null pointer returns success immediately; an
invalid range is rejected; otherwise one transfer per layer (at least
one) is recorded, in loop order. -/
def Texture.upload (tex : Texture) (slice : Nat → Nat → Nat → Nat → Nat)
    (range : TextureRangeDesc) (data : Option (Nat → UInt8)) (bytesPerRow : Nat) :
    ResultCode × List Transfer :=
  match data with
  | none => (.Ok, [])
  | some src =>
    if validateRange tex.desc range ≠ .Ok then (validateRange tex.desc range, [])
    else
      (.Ok, (List.range (max range.numLayers 1)).map
        (uploadLayerTransfer tex slice range src bytesPerRow))

/-- Modelled from the spec: the `igl::TextureCubeFace` enum is outside the
given sources; the spec fixes the face order PosX..NegZ with ordinals
0..5. -/
inductive TextureCubeFace
  | PosX
  | NegX
  | PosY
  | NegY
  | PosZ
  | NegZ
deriving DecidableEq, Repr

/-- The ordinal of a cube face (PosX ↦ 0, …, NegZ ↦ 5). -/
def TextureCubeFace.ordinal : TextureCubeFace → Nat
  | .PosX => 0
  | .NegX => 1
  | .PosY => 2
  | .NegY => 3
  | .PosZ => 4
  | .NegZ => 5

/-- Modelled from the spec: the numeric value of a face enumerator;
PosX..NegZ are consecutive, so the value is `ordinal` plus the value of
PosX (taken as 0; only differences of values are ever used). -/
def TextureCubeFace.val (f : TextureCubeFace) : Nat :=
  f.ordinal

/-- Translation of `Texture::uploadCube`: validate the range, then record
one 2D transfer whose layer is `(uint32_t)face - (uint32_t)PosX` and whose
data pointer is the caller's pointer passed through unchanged (there is no
null check).  The `bytesPerRow` parameter is accepted but never read, as
in the source. -/
def Texture.uploadCube (tex : Texture) (range : TextureRangeDesc)
    (face : TextureCubeFace) (data : Option (Nat → UInt8)) (_bytesPerRow : Nat) :
    ResultCode × List Transfer :=
  let v := validateRange tex.desc range
  if v ≠ .Ok then (v, [])
  else
    (.Ok,
     [Transfer.data2D range.x range.y range.width range.height
        range.mipLevel range.numMipLevels
        (face.val - TextureCubeFace.PosX.val)
        (match data with
         | none => UploadSrc.null
         | some _ => UploadSrc.direct 0)])

/-- An image view created by `VulkanImage::createImageView` for the
framebuffer cache: view type, aspect flags, base mip level, mip-level
count, base layer, layer count, plus a creation sequence number `id`
standing for the distinct `VkImageView` handle. -/
structure FbView where
  viewType : VkImageViewType
  aspect : Aspect
  baseMipLevel : Nat
  numMipLevelsView : Nat
  baseLayer : Nat
  numLayersView : Nat
  id : Nat
deriving DecidableEq, Repr

/-- The mutable state behind `getVkImageViewForFramebuffer`: the vector
`imageViewForFramebuffer_` (a null entry is `none`) and a counter of views
created so far (fresh handles). -/
structure ViewCache where
  views : List (Option FbView)
  nextId : Nat
deriving DecidableEq, Repr

/-- The cache entry at a mip level: null when the vector is shorter than
`level + 1` or holds a null pointer there. -/
def ViewCache.entryAt (s : ViewCache) (level : Nat) : Option FbView :=
  s.views.getD level none

/-- Translation of `Texture::getVkImageViewForFramebuffer`.  If the cache
vector already holds a view at `level`, return it unchanged; otherwise
grow the vector to `level + 1` entries when needed (`resize` appends null
entries), create a single-mip, single-layer 2D view at base mip `level`
with the image's aspect flags (`aspect`, the same aspect as the primary
view), store it at index `level`, and return it. -/
def getVkImageViewForFramebuffer (aspect : Aspect) (s : ViewCache) (level : Nat) :
    FbView × ViewCache :=
  match s.entryAt level with
  | some v => (v, s)
  | none =>
    let grown :=
      if s.views.length ≤ level then
        s.views ++ List.replicate (level + 1 - s.views.length) none
      else s.views
    let v : FbView :=
      { viewType := .t2D
        aspect := aspect
        baseMipLevel := level
        numMipLevelsView := 1
        baseLayer := 0
        numLayersView := 1
        id := s.nextId }
    (v, { views := grown.set level (some v), nextId := s.nextId + 1 })

/-- The tightly-packed pixel bytes the transfer step consumes from an
upload source: `n` bytes read from the caller's buffer for the direct
(aligned) path, the repacked temporary buffer itself for the packed
(unaligned) path, nothing for a null pointer. -/
def UploadSrc.handedBytes (src : Nat → UInt8) (n : Nat) : UploadSrc → List UInt8
  | .null => []
  | .direct off => (List.range n).map fun k => src (off + k)
  | .packed _ bytes => bytes

/-- A transfer with its source materialized to the tight byte list handed
to the transfer step: the resulting device-side image content is a
function of exactly these fields. -/
def Transfer.materialize (src : Nat → UInt8) (n : Nat) : Transfer → Transfer
  | .data3D x y z width height depth s =>
      .data3D x y z width height depth (.packed 0 (s.handedBytes src n))
  | .data2D x y width height mip nm layer s =>
      .data2D x y width height mip nm layer (.packed 0 (s.handedBytes src n))

/-- Concrete format used by witnesses and counterexamples: uncompressed
4-byte-per-pixel color format. -/
def fmt0 : FormatProps :=
  ⟨false, false, 4, 16⟩

/-- Concrete descriptor used by witnesses and counterexamples: a 4×4
two-layer 2D texture. -/
def desc0 : TextureDesc :=
  ⟨.TwoD, fmt0, 4, 4, 1, 2, 1, 1, ⟨true, false, false⟩, .Private⟩

/-- Concrete descriptor with a zero mip-level count and more than one
sample. -/
def descMs0 : TextureDesc :=
  { desc0 with numMipLevels := 0, numSamples := 4 }

/-- Concrete descriptor with a zero mip-level count and an empty usage
bit-set. -/
def descNorm0 : TextureDesc :=
  { desc0 with numMipLevels := 0, usage := ⟨false, false, false⟩ }

/-- Concrete cube descriptor with more than one sample and one mip
level. -/
def descCube0 : TextureDesc :=
  { desc0 with type := .Cube, numSamples := 4 }

/-- Concrete texture carrying `desc0`. -/
def tex0 : Texture :=
  ⟨desc0⟩

/-- Concrete two-layer upload range covering the whole 4×4 image. -/
def range0 : TextureRangeDesc :=
  ⟨0, 0, 0, 4, 4, 1, 0, 2, 0, 1⟩

/-- Concrete single-layer upload range covering the whole 4×4 image. -/
def fullRange0 : TextureRangeDesc :=
  ⟨0, 0, 0, 4, 4, 1, 0, 1, 0, 1⟩

/-- Concrete out-of-bounds upload range: width 8 against a 4-wide image. -/
def badRange0 : TextureRangeDesc :=
  ⟨0, 0, 0, 8, 4, 1, 0, 1, 0, 1⟩

/-- Concrete per-slice byte-size function standing for
`getTextureBytesPerSlice` at 4 bytes per pixel. -/
def slice0 : Nat → Nat → Nat → Nat → Nat :=
  fun width height depth _ => width * height * depth * 4

/-- Concrete pixel bytes, tightly packed at 16 bytes per row. -/
def srcA : Nat → UInt8 :=
  fun k => UInt8.ofNat k

/-- The same pixel content as `srcA` laid out with row stride 20: the
first 16 bytes of each 20-byte row are the corresponding packed row. -/
def srcB : Nat → UInt8 :=
  fun k => srcA (k / 20 * 16 + k % 20)

/-- Concrete empty framebuffer-view cache. -/
def cache0 : ViewCache :=
  ⟨[], 0⟩

/-- C4: For every range and every row stride, calling `Texture::upload`
with a null source data pointer returns a success result and records no
staging transfer, leaving the resource's content unchanged (the null
check is the first statement of `upload`). -/
theorem upload_null_is_silent_success (tex : Texture)
    (slice : Nat → Nat → Nat → Nat → Nat) (range : TextureRangeDesc)
    (bytesPerRow : Nat) :
    tex.upload slice range none bytesPerRow = (ResultCode.Ok, []) :=
  rfl

/-- C1 counterexample: a call to `upload` whose range escapes the
resource's dimensions but whose source pointer is null returns `Ok`, not
`RangeOutOfBounds`, because the null-pointer check precedes the range
check — refuting the claim for the null value of the pointer. -/
theorem upload_oob_null_returns_ok :
    rangeInBounds tex0.desc badRange0 = false ∧
    tex0.upload slice0 badRange0 none 0 = (ResultCode.Ok, []) :=
  ⟨rfl, rfl⟩

/-- C1 (amended): for every call to `upload` with a non-null source
pointer whose range escapes the resource's dimensions at the addressed
mip level or whose layer span escapes the layer count, `upload` returns
`RangeOutOfBounds` and records no staging transfer, for every row
stride. -/
theorem upload_oob_rejected (tex : Texture)
    (slice : Nat → Nat → Nat → Nat → Nat) (range : TextureRangeDesc)
    (src : Nat → UInt8) (bytesPerRow : Nat)
    (h : rangeInBounds tex.desc range = false) :
    tex.upload slice range (some src) bytesPerRow =
      (ResultCode.RangeOutOfBounds, []) := by
  simp [Texture.upload, validateRange, h]

/-- C1 witness: the amended theorem applied to a concrete out-of-bounds
range. -/
theorem upload_oob_rejected_witness :
    tex0.upload slice0 badRange0 (some srcA) 0 =
      (ResultCode.RangeOutOfBounds, []) :=
  upload_oob_rejected tex0 slice0 badRange0 srcA 0 rfl

/-- C7: For every valid call to `Texture::uploadCube`, the single recorded
2D copy is issued with destination layer index equal to the ordinal of the
requested face (`(uint32_t)face - (uint32_t)PosX`), so the six face enums
address layer indices 0 through 5 respectively. -/
theorem uploadCube_layer_is_face_ordinal (tex : Texture)
    (range : TextureRangeDesc) (face : TextureCubeFace)
    (data : Option (Nat → UInt8)) (bytesPerRow : Nat)
    (h : rangeInBounds tex.desc range = true) :
    (tex.uploadCube range face data bytesPerRow).1 = ResultCode.Ok ∧
    (tex.uploadCube range face data bytesPerRow).2.map Transfer.layerOf =
      [some face.ordinal] := by
  constructor
  · simp [Texture.uploadCube, validateRange, h]
  · simp only [Texture.uploadCube, validateRange, h, if_true, ite_not,
      List.map_cons, List.map_nil, Transfer.layerOf, TextureCubeFace.val]
    cases face <;> rfl

/-- C7 witness: the theorem applied to the concrete face `NegY`, whose
ordinal is 3. -/
theorem uploadCube_layer_is_face_ordinal_witness :
    (tex0.uploadCube fullRange0 TextureCubeFace.NegY (some srcA) 0).2.map
        Transfer.layerOf = [some 3] :=
  (uploadCube_layer_is_face_ordinal tex0 fullRange0 TextureCubeFace.NegY
    (some srcA) 0 rfl).2

/-- C10: `Texture::uploadCube` does not treat a null source pointer as a
no-op: for every call whose range validates, it records exactly one 2D
copy whose source is the passed-through null pointer, while
`Texture::upload` with the same null pointer returns success and records
nothing. -/
theorem uploadCube_null_passed_through (tex : Texture)
    (slice : Nat → Nat → Nat → Nat → Nat) (range : TextureRangeDesc)
    (face : TextureCubeFace) (bytesPerRow : Nat)
    (h : rangeInBounds tex.desc range = true) :
    (tex.uploadCube range face none bytesPerRow).1 = ResultCode.Ok ∧
    (tex.uploadCube range face none bytesPerRow).2.map Transfer.srcOf =
      [UploadSrc.null] ∧
    tex.upload slice range none bytesPerRow = (ResultCode.Ok, []) := by
  refine ⟨?_, ?_, rfl⟩
  · simp [Texture.uploadCube, validateRange, h]
  · simp [Texture.uploadCube, validateRange, h, Transfer.srcOf]

/-- C10 witness: the theorem applied to a concrete in-bounds range. -/
theorem uploadCube_null_passed_through_witness :
    (tex0.uploadCube fullRange0 TextureCubeFace.PosX none 0).2.map
        Transfer.srcOf = [UploadSrc.null] :=
  (uploadCube_null_passed_through tex0 slice0 fullRange0 TextureCubeFace.PosX
    0 rfl).2.1

theorem normalizeMipCount_numSamples (desc : TextureDesc) :
    (normalizeMipCount desc).numSamples = desc.numSamples := by
  unfold normalizeMipCount; split <;> rfl

theorem normalizeMipCount_type (desc : TextureDesc) :
    (normalizeMipCount desc).type = desc.type := by
  unfold normalizeMipCount; split <;> rfl

theorem normalizeMipCount_usage (desc : TextureDesc) :
    (normalizeMipCount desc).usage = desc.usage := by
  unfold normalizeMipCount; split <;> rfl

theorem normalizeMipCount_numMipLevels (desc : TextureDesc) :
    (normalizeMipCount desc).numMipLevels =
      if desc.numMipLevels = 0 then 1 else desc.numMipLevels := by
  unfold normalizeMipCount; split <;> simp_all

theorem normalizeUsage_numMipLevels (d : TextureDesc) :
    (normalizeUsage d).numMipLevels = d.numMipLevels := by
  unfold normalizeUsage; split <;> rfl

theorem normalizeUsage_type (d : TextureDesc) :
    (normalizeUsage d).type = d.type := by
  unfold normalizeUsage; split <;> rfl

/-- C2 counterexample: a descriptor with `numSamples = 4` and
`numMipLevels = 0` has `numMipLevels ≠ 1`, yet `Texture::create` accepts
it and creates an image, because the zero-mip normalization (to 1) runs
before the multisampling check. -/
theorem create_multisampled_zero_mips_accepted :
    descMs0.numSamples > 1 ∧ descMs0.numMipLevels ≠ 1 ∧
    (Texture.create id descMs0).result = ResultCode.Ok ∧
    (Texture.create id descMs0).image.isSome = true :=
  ⟨by decide, by decide, rfl, rfl⟩

/-- C2 (amended): for every descriptor with `numSamples > 1`,
`Texture::create` fails with `ArgumentOutOfRange` (the
InvalidSampleConfiguration error kind) whenever the mip-level count after
the zero→one normalization differs from 1 (that is, `numMipLevels ≥ 2`)
or the type is ThreeD, and in that case no device image is created. -/
theorem create_multisample_bad_config_fails (sampleFlags : Nat → Nat)
    (desc : TextureDesc) (h1 : desc.numSamples > 1)
    (h2 : 2 ≤ desc.numMipLevels ∨ desc.type = TextureType.ThreeD) :
    (Texture.create sampleFlags desc).result = ResultCode.ArgumentOutOfRange ∧
    (Texture.create sampleFlags desc).image = none := by
  unfold Texture.create
  rcases h2 with h2 | h2
  · have hm : (normalizeMipCount desc).numMipLevels ≠ 1 := by
      rw [normalizeMipCount_numMipLevels]; split <;> omega
    simp [h1, hm]
  · by_cases hm : (normalizeMipCount desc).numMipLevels = 1
    · have ht : (normalizeMipCount desc).type = TextureType.ThreeD := by
        rw [normalizeMipCount_type]; exact h2
      simp [h1, hm, ht]
    · simp [h1, hm]

/-- C2 witness: the amended theorem applied to a concrete multisampled
two-mip descriptor. -/
theorem create_multisample_bad_config_fails_witness :
    (Texture.create id { desc0 with numSamples := 4, numMipLevels := 2 }).result =
        ResultCode.ArgumentOutOfRange ∧
    (Texture.create id { desc0 with numSamples := 4, numMipLevels := 2 }).image =
        none :=
  create_multisample_bad_config_fails id
    { desc0 with numSamples := 4, numMipLevels := 2 } (by decide)
    (Or.inl (by decide))

/-- C3: a descriptor with `numMipLevels = 0` is not rejected for that
reason: `Texture::create` behaves exactly as if the count were 1 and the
getter `getNumMipLevels` afterwards reports the corrected value 1; a
descriptor with an empty usage bit-set that is accepted has its usage
corrected to Sampled, as reported by `getUsage`. -/
theorem create_normalizes_defaults (sampleFlags : Nat → Nat)
    (desc : TextureDesc) :
    (desc.numMipLevels = 0 →
      Texture.create sampleFlags desc =
        Texture.create sampleFlags { desc with numMipLevels := 1 } ∧
      (Texture.create sampleFlags desc).getNumMipLevels = 1) ∧
    (desc.usage.isEmpty = true →
      (Texture.create sampleFlags desc).result = ResultCode.Ok →
      (Texture.create sampleFlags desc).getUsage = TextureUsage.sampledOnly) := by
  constructor
  · intro h0
    have hd : normalizeMipCount desc =
        normalizeMipCount { desc with numMipLevels := 1 } := by
      unfold normalizeMipCount
      simp [h0]
    constructor
    · unfold Texture.create
      rw [hd]
    · have hm : (normalizeMipCount desc).numMipLevels = 1 := by
        rw [normalizeMipCount_numMipLevels]; simp [h0]
      unfold Texture.create CreateOutput.getNumMipLevels
      split
      · simpa using hm
      · split
        · simpa using hm
        · split
          · simpa using hm
          · simp [normalizeUsage_numMipLevels, hm]
  · intro hu
    have hu1 : (normalizeMipCount desc).usage.isEmpty = true := by
      rw [normalizeMipCount_usage]; exact hu
    unfold Texture.create CreateOutput.getUsage
    split
    · intro hok; exact absurd hok (by simp)
    · split
      · intro hok; exact absurd hok (by simp)
      · split
        · intro hok; exact absurd hok (by simp)
        · intro _
          simp [normalizeUsage, hu1]

/-- C3 witness: a descriptor with zero mip levels and an empty usage set;
the getters report the corrected values 1 and Sampled. -/
theorem create_normalizes_defaults_witness :
    (Texture.create id descNorm0).getNumMipLevels = 1 ∧
    (Texture.create id descNorm0).getUsage = TextureUsage.sampledOnly :=
  ⟨((create_normalizes_defaults id descNorm0).1 rfl).2,
   (create_normalizes_defaults id descNorm0).2 rfl rfl⟩

/-- C9: for every accepted descriptor whose type is not TwoD (Cube or
ThreeD), the device image is allocated with sample count 1 regardless of
`desc.numSamples`; the requested sample count reaches the image only for
TwoD; and a Cube descriptor with one mip level is accepted for every
sample count, its image silently single-sampled. -/
theorem create_nonTwoD_single_sampled (sampleFlags : Nat → Nat)
    (desc : TextureDesc) :
    (∀ info, desc.type ≠ TextureType.TwoD →
      (Texture.create sampleFlags desc).image = some info →
      info.samples = 1) ∧
    (∀ info, desc.type = TextureType.TwoD →
      (Texture.create sampleFlags desc).image = some info →
      info.samples = sampleFlags desc.numSamples) ∧
    (desc.type = TextureType.Cube → desc.numMipLevels = 1 →
      (Texture.create sampleFlags desc).result = ResultCode.Ok ∧
      (Texture.create sampleFlags desc).image.map ImageCreateInfo.samples =
        some 1) := by
  have htype : ((normalizeUsage (normalizeMipCount desc))).type = desc.type := by
    rw [normalizeUsage_type, normalizeMipCount_type]
  have hsamp : ∀ d : TextureDesc,
      (mkImageCreateInfo sampleFlags d).samples =
        (if d.type = TextureType.TwoD then sampleFlags d.numSamples else 1) := by
    intro d
    unfold mkImageCreateInfo
    cases d.type <;> simp
  refine ⟨?_, ?_, ?_⟩
  · intro info ht him
    unfold Texture.create at him
    split at him
    · exact absurd him (by simp)
    · split at him
      · exact absurd him (by simp)
      · split at him
        · exact absurd him (by simp)
        · have := hsamp (normalizeUsage (normalizeMipCount desc))
          rw [htype] at this
          simp only [Option.some.injEq] at him
          rw [← him, this, if_neg ht]
  · intro info ht him
    unfold Texture.create at him
    split at him
    · exact absurd him (by simp)
    · split at him
      · exact absurd him (by simp)
      · split at him
        · exact absurd him (by simp)
        · have := hsamp (normalizeUsage (normalizeMipCount desc))
          rw [htype] at this
          have hns : (normalizeUsage (normalizeMipCount desc)).numSamples =
              desc.numSamples := by
            unfold normalizeUsage
            split <;> simp [normalizeMipCount_numSamples]
          simp only [Option.some.injEq] at him
          rw [← him, this, if_pos ht, hns]
  · intro ht hm
    have hd : normalizeMipCount desc = desc := by
      unfold normalizeMipCount; simp [hm]
    have hmle : (normalizeMipCount desc).numMipLevels ≤
        calcNumMipLevels (normalizeMipCount desc).width
          (normalizeMipCount desc).height := by
      rw [hd, hm]
      unfold calcNumMipLevels
      omega
    unfold Texture.create
    rw [hd]
    have hc1 : ¬ (desc.numSamples > 1 ∧ desc.numMipLevels ≠ 1) := by
      simp [hm]
    have hc2 : ¬ (desc.numSamples > 1 ∧ desc.type = TextureType.ThreeD) := by
      simp [ht]
    rw [hd] at hmle
    simp only [hc1, if_false, hc2, hmle, not_true_eq_false]
    constructor
    · simp
    · have := hsamp (normalizeUsage desc)
      rw [normalizeUsage_type, ht] at this
      simp [this]

/-- C9 witness: a concrete Cube descriptor with 4 samples and 1 mip level
is accepted and its image is single-sampled. -/
theorem create_nonTwoD_single_sampled_witness :
    (Texture.create id descCube0).result = ResultCode.Ok ∧
    (Texture.create id descCube0).image.map ImageCreateInfo.samples = some 1 :=
  (create_nonTwoD_single_sampled id descCube0).2.2 rfl rfl

theorem getD_set_self {α : Type} :
    ∀ (l : List α) (i : Nat) (a d : α), i < l.length → (l.set i a).getD i d = a
  | _ :: _, 0, _, _, _ => rfl
  | _ :: xs, i + 1, a, d, h => getD_set_self xs i a d (Nat.lt_of_succ_lt_succ h)

theorem getD_set_ne {α : Type} :
    ∀ (l : List α) (i j : Nat) (a d : α), j ≠ i →
      (l.set i a).getD j d = l.getD j d
  | [], _, _, _, _, _ => rfl
  | _ :: _, 0, 0, _, _, h => absurd rfl h
  | _ :: _, 0, _ + 1, _, _, _ => rfl
  | _ :: _, _ + 1, 0, _, _, _ => rfl
  | _ :: xs, i + 1, j + 1, a, d, h =>
      getD_set_ne xs i j a d fun e => h (by rw [e])

theorem replicate_getD_none {α : Type} :
    ∀ (k j : Nat), (List.replicate k (none : Option α)).getD j none = none
  | 0, _ => rfl
  | _ + 1, 0 => rfl
  | k + 1, j + 1 => replicate_getD_none k j

theorem getD_append_replicate_none {α : Type} :
    ∀ (l : List (Option α)) (k j : Nat),
      (l ++ List.replicate k none).getD j none = l.getD j none
  | [], k, j => replicate_getD_none k j
  | _ :: _, _, 0 => rfl
  | _ :: xs, k, j + 1 => getD_append_replicate_none xs k j

/-- C8: when the framebuffer-view cache holds nothing at mip level
`level`, a call to `getVkImageViewForFramebuffer` creates exactly one new
single-mip, single-layer 2D view with the image's aspect (the aspect of
the primary view) and stores it in the cache at index `level`; the next
call with the same level returns that very view and leaves the state
unchanged (no further view is created); and any call with level `level`
never removes or replaces the cache entry of a different level. -/
theorem getViewForFramebuffer_cache_spec (aspect : Aspect) (s : ViewCache)
    (level : Nat) (h : s.entryAt level = none) (v : FbView) (s' : ViewCache)
    (hcall : getVkImageViewForFramebuffer aspect s level = (v, s')) :
    (v.baseMipLevel = level ∧ v.numMipLevelsView = 1 ∧ v.baseLayer = 0 ∧
     v.numLayersView = 1 ∧ v.aspect = aspect ∧
     v.viewType = VkImageViewType.t2D) ∧
    s'.nextId = s.nextId + 1 ∧
    s'.entryAt level = some v ∧
    getVkImageViewForFramebuffer aspect s' level = (v, s') ∧
    (∀ (t : ViewCache) (l : Nat), l ≠ level →
      (getVkImageViewForFramebuffer aspect t level).2.entryAt l =
        t.entryAt l) := by
  have hgrow : ∀ (t : ViewCache) (l : Nat), l ≠ level →
      (getVkImageViewForFramebuffer aspect t level).2.entryAt l =
        t.entryAt l := by
    intro t l hl
    unfold getVkImageViewForFramebuffer
    cases ht : t.entryAt level with
    | some w => rfl
    | none =>
      simp only [ViewCache.entryAt]
      rw [getD_set_ne _ _ _ _ _ hl]
      split
      · exact getD_append_replicate_none t.views _ l
      · rfl
  unfold getVkImageViewForFramebuffer at hcall
  rw [h] at hcall
  simp only [Prod.mk.injEq] at hcall
  obtain ⟨hv, hs⟩ := hcall
  subst hv
  subst hs
  refine ⟨⟨rfl, rfl, rfl, rfl, rfl, rfl⟩, rfl, ?_, ?_, hgrow⟩
  · show ViewCache.entryAt _ level = _
    simp only [ViewCache.entryAt]
    apply getD_set_self
    split
    · rename_i hlen
      rw [List.length_append, List.length_replicate]
      omega
    · rename_i hlen
      omega
  · have hself : ViewCache.entryAt
        ⟨(if s.views.length ≤ level then
            s.views ++ List.replicate (level + 1 - s.views.length) none
          else s.views).set level
            (some ⟨.t2D, aspect, level, 1, 0, 1, s.nextId⟩),
          s.nextId + 1⟩ level =
        some ⟨.t2D, aspect, level, 1, 0, 1, s.nextId⟩ := by
      simp only [ViewCache.entryAt]
      apply getD_set_self
      split
      · rename_i hlen
        rw [List.length_append, List.length_replicate]
        omega
      · rename_i hlen
        omega
    unfold getVkImageViewForFramebuffer
    rw [hself]

/-- C8 witness: the theorem applied to the empty cache at level 2. -/
theorem getViewForFramebuffer_cache_spec_witness :
    (getVkImageViewForFramebuffer Aspect.depth cache0 2).2.entryAt 2 =
      some (getVkImageViewForFramebuffer Aspect.depth cache0 2).1 :=
  (getViewForFramebuffer_cache_spec Aspect.depth cache0 2 rfl
    (getVkImageViewForFramebuffer Aspect.depth cache0 2).1
    (getVkImageViewForFramebuffer Aspect.depth cache0 2).2 rfl).2.2.1

theorem foldl_add_eq_sum (f : Nat → Nat) :
    ∀ (l : List Nat) (a : Nat),
      l.foldl (fun acc i => acc + f i) a = a + (l.map f).sum
  | [], a => by simp
  | x :: xs, a => by
    simp only [List.foldl_cons, List.map_cons, List.sum_cons]
    rw [foldl_add_eq_sum f xs (a + f x)]
    omega

/-- The byte increment computed by `Texture::upload` for a multi-layer
upload — the slice size at mip 0 plus the slice sizes at mips
1 … numMipLevels−1 — equals the sum of the per-mip slice sizes over the
whole span 0 … numMipLevels−1. -/
theorem mipChainSum_eq (f : Nat → Nat) (n : Nat) (hn : 1 ≤ n) :
    f 0 + (List.range' 1 (n - 1)).foldl (fun acc i => acc + f i) 0 =
      ((List.range n).map f).sum := by
  obtain ⟨m, rfl⟩ : ∃ m, n = m + 1 := ⟨n - 1, by omega⟩
  rw [foldl_add_eq_sum]
  simp only [Nat.add_sub_cancel, Nat.zero_add]
  rw [List.range'_eq_map_range, List.range_succ_eq_map]
  simp [List.map_map, Function.comp_def, Nat.add_comm]

/-- C5: for every valid 2D-path upload with at least two layers and at
least one requested mip level, `Texture::upload` records the per-layer
transfers in increasing layer order — the i-th transfer targets layer
`range.layer + i` — and the source bytes used for layer i start at byte
offset `i * S` from the caller's pointer, where S is the sum over mip
levels 0 … numMipLevels−1 of the per-mip slice byte sizes. -/
theorem upload_layers_in_order (tex : Texture)
    (slice : Nat → Nat → Nat → Nat → Nat) (range : TextureRangeDesc)
    (src : Nat → UInt8) (bytesPerRow : Nat)
    (hL : 2 ≤ range.numLayers) (hM : 1 ≤ range.numMipLevels)
    (hR : rangeInBounds tex.desc range = true)
    (hT : tex.desc.type ≠ TextureType.ThreeD) :
    (tex.upload slice range (some src) bytesPerRow).1 = ResultCode.Ok ∧
    (tex.upload slice range (some src) bytesPerRow).2.length =
      range.numLayers ∧
    (∀ i, i < range.numLayers →
      ((tex.upload slice range (some src) bytesPerRow).2[i]?).bind
          Transfer.layerOf = some (range.layer + i) ∧
      ((tex.upload slice range (some src) bytesPerRow).2[i]?).bind
          (fun t => t.srcOf.base?) =
        some (i * ((List.range range.numMipLevels).map
          (slice range.width range.height range.depth)).sum)) := by
  have hmax : max range.numLayers 1 = range.numLayers := by omega
  have hv : ¬ tex.desc.type.toVkImageType = VkImageType.i3D := by
    cases htt : tex.desc.type
    · simp [TextureType.toVkImageType]
    · exact absurd htt hT
    · simp [TextureType.toVkImageType]
  have hinc : uploadByteIncrement slice range =
      ((List.range range.numMipLevels).map
        (slice range.width range.height range.depth)).sum := by
    unfold uploadByteIncrement
    rw [if_pos (by omega)]
    exact mipChainSum_eq _ _ hM
  have hval : validateRange tex.desc range = ResultCode.Ok := by
    simp [validateRange, hR]
  have hup : tex.upload slice range (some src) bytesPerRow =
      (ResultCode.Ok, (List.range (max range.numLayers 1)).map
        (uploadLayerTransfer tex slice range src bytesPerRow)) := by
    simp only [Texture.upload, hval, ne_eq, not_true_eq_false, if_false]
  rw [hup]
  refine ⟨rfl, ?_, ?_⟩
  · show ((List.range (max range.numLayers 1)).map
        (uploadLayerTransfer tex slice range src bytesPerRow)).length =
      range.numLayers
    rw [List.length_map, List.length_range]
    omega
  · intro i hi
    have hi' : i < max range.numLayers 1 := by omega
    have hgi : ((List.range (max range.numLayers 1)).map
        (uploadLayerTransfer tex slice range src bytesPerRow))[i]? =
        some (uploadLayerTransfer tex slice range src bytesPerRow i) := by
      rw [List.getElem?_map, List.getElem?_range hi']
      rfl
    have hlt : uploadLayerTransfer tex slice range src bytesPerRow i =
        Transfer.data2D range.x range.y range.width range.height
          range.mipLevel range.numMipLevels (range.layer + i)
          (uploadLayerSrc tex slice range src bytesPerRow i) := by
      unfold uploadLayerTransfer
      rw [if_neg hv]
    rw [hgi, hlt]
    refine ⟨rfl, ?_⟩
    show (uploadLayerSrc tex slice range src bytesPerRow i).base? = _
    unfold uploadLayerSrc
    rw [hinc]
    split <;> rfl

/-- C5 witness: the theorem applied to a concrete two-layer upload; the
second transfer's source offset is one mip-chain byte size. -/
theorem upload_layers_in_order_witness :
    ((tex0.upload slice0 range0 (some srcA) 0).2[1]?).bind
        (fun t => t.srcOf.base?) =
      some (1 * ((List.range range0.numMipLevels).map
        (slice0 range0.width range0.height range0.depth)).sum) :=
  ((upload_layers_in_order tex0 slice0 range0 srcA 0 (by decide) (by decide)
    rfl (by decide)).2.2 1 (by decide)).2

/-- Reading `rows * w` consecutive indices equals reading `rows` rows of
`w` indices each. -/
theorem range_mul_flatMap {α : Type} (f : Nat → α) :
    ∀ rows w : Nat,
      (List.range (rows * w)).map f =
        (List.range rows).flatMap fun h =>
          (List.range w).map fun k => f (h * w + k)
  | 0, _ => by simp
  | rows + 1, w => by
    rw [Nat.succ_mul, List.range_add, List.map_append, List.range_succ,
      List.flatMap_append, ← range_mul_flatMap f rows w]
    simp [List.map_map, Function.comp_def]

theorem flatMap_range_congr {α : Type} (g1 g2 : Nat → List α) :
    ∀ rows : Nat, (∀ h, h < rows → g1 h = g2 h) →
      (List.range rows).flatMap g1 = (List.range rows).flatMap g2
  | 0, _ => rfl
  | rows + 1, hg => by
    rw [List.range_succ, List.flatMap_append, List.flatMap_append,
      flatMap_range_congr g1 g2 rows fun h hh => hg h (by omega)]
    simp [hg rows (by omega)]

theorem map_range_congr {α : Type} (f1 f2 : Nat → α) :
    ∀ w : Nat, (∀ k, k < w → f1 k = f2 k) →
      (List.range w).map f1 = (List.range w).map f2
  | 0, _ => rfl
  | w + 1, hf => by
    rw [List.range_succ, List.map_append, List.map_append,
      map_range_congr f1 f2 w fun k hk => hf k (by omega)]
    simp [hf w (by omega)]

/-- Repacking strided rows whose payload matches a tightly-packed buffer
reproduces exactly that tightly-packed buffer. -/
theorem repack_eq_tight (src1 src2 : Nat → UInt8) (rows rowW stride : Nat)
    (hdata : ∀ h, h < rows → ∀ k, k < rowW →
      src2 (h * stride + k) = src1 (h * rowW + k)) :
    repack src2 0 rows rowW stride = (List.range (rowW * rows)).map src1 := by
  unfold repack
  rw [Nat.mul_comm rowW rows, range_mul_flatMap src1 rows rowW]
  apply flatMap_range_congr
  intro h hh
  apply map_range_congr
  intro k hk
  rw [Nat.zero_add]
  exact hdata h hh k hk

/-- C6: for an uncompressed format, uploading the same single-layer pixel
content once with row stride equal to the packed row width (aligned path,
buffer used directly) and once with a strictly larger stride whose rows
carry the same payload followed by padding (unaligned path, rows repacked
into a tight temporary buffer) hands byte-identical pixel data to the
transfer step, and every other field of the recorded transfer is
identical, so the resulting device-side image content is identical. -/
theorem upload_unaligned_equiv (tex : Texture)
    (slice : Nat → Nat → Nat → Nat → Nat) (range : TextureRangeDesc)
    (src1 src2 : Nat → UInt8) (stride : Nat)
    (hC : tex.desc.format.isCompressed = false)
    (hS : imageRowWidth tex.desc < stride)
    (hL : range.numLayers ≤ 1)
    (hR : rangeInBounds tex.desc range = true)
    (hdata : ∀ h, h < tex.desc.height → ∀ k, k < imageRowWidth tex.desc →
      src2 (h * stride + k) = src1 (h * imageRowWidth tex.desc + k)) :
    (tex.upload slice range (some src1) (imageRowWidth tex.desc)).1 =
      ResultCode.Ok ∧
    (tex.upload slice range (some src2) stride).1 = ResultCode.Ok ∧
    (tex.upload slice range (some src1) (imageRowWidth tex.desc)).2.map
        (Transfer.materialize src1 (imageRowWidth tex.desc * tex.desc.height)) =
      (tex.upload slice range (some src2) stride).2.map
        (Transfer.materialize src2 (imageRowWidth tex.desc * tex.desc.height)) := by
  have hval : validateRange tex.desc range = ResultCode.Ok := by
    simp [validateRange, hR]
  have hmax : max range.numLayers 1 = 1 := by omega
  have hup1 : tex.upload slice range (some src1) (imageRowWidth tex.desc) =
      (ResultCode.Ok, (List.range (max range.numLayers 1)).map
        (uploadLayerTransfer tex slice range src1 (imageRowWidth tex.desc))) := by
    simp only [Texture.upload, hval, ne_eq, not_true_eq_false, if_false]
  have hup2 : tex.upload slice range (some src2) stride =
      (ResultCode.Ok, (List.range (max range.numLayers 1)).map
        (uploadLayerTransfer tex slice range src2 stride)) := by
    simp only [Texture.upload, hval, ne_eq, not_true_eq_false, if_false]
  have hal1 : uploadIsAligned tex.desc (imageRowWidth tex.desc) = true := by
    simp [uploadIsAligned]
  have h0 : ¬ stride = 0 := by omega
  have hne : ¬ imageRowWidth tex.desc = stride := by omega
  have hal2 : uploadIsAligned tex.desc stride = false := by
    simp [uploadIsAligned, hC, h0, hne]
  have hsrc :
      (uploadLayerSrc tex slice range src1 (imageRowWidth tex.desc)
          0).handedBytes src1 (imageRowWidth tex.desc * tex.desc.height) =
      (uploadLayerSrc tex slice range src2 stride 0).handedBytes src2
        (imageRowWidth tex.desc * tex.desc.height) := by
    unfold uploadLayerSrc
    rw [if_pos hal1, if_neg (by simp [hal2])]
    simp only [UploadSrc.handedBytes, Nat.zero_mul, Nat.zero_add]
    exact (repack_eq_tight src1 src2 tex.desc.height (imageRowWidth tex.desc)
      stride hdata).symm
  have hfin : Transfer.materialize src1
        (imageRowWidth tex.desc * tex.desc.height)
        (uploadLayerTransfer tex slice range src1 (imageRowWidth tex.desc) 0) =
      Transfer.materialize src2 (imageRowWidth tex.desc * tex.desc.height)
        (uploadLayerTransfer tex slice range src2 stride 0) := by
    unfold uploadLayerTransfer
    by_cases h3 : tex.desc.type.toVkImageType = VkImageType.i3D
    · rw [if_pos h3, if_pos h3]
      simp only [Transfer.materialize]
      rw [hsrc]
    · rw [if_neg h3, if_neg h3]
      simp only [Transfer.materialize]
      rw [hsrc]
  refine ⟨by rw [hup1], by rw [hup2], ?_⟩
  rw [hup1, hup2, hmax]
  show [Transfer.materialize src1 (imageRowWidth tex.desc * tex.desc.height)
      (uploadLayerTransfer tex slice range src1 (imageRowWidth tex.desc) 0)] =
    [Transfer.materialize src2 (imageRowWidth tex.desc * tex.desc.height)
      (uploadLayerTransfer tex slice range src2 stride 0)]
  rw [hfin]

/-- C6 witness: the theorem applied to concrete 4×4 RGBA content packed at
16 bytes per row versus strided at 20 bytes per row. -/
theorem upload_unaligned_equiv_witness :
    (tex0.upload slice0 fullRange0 (some srcA) (imageRowWidth tex0.desc)).2.map
        (Transfer.materialize srcA
          (imageRowWidth tex0.desc * tex0.desc.height)) =
      (tex0.upload slice0 fullRange0 (some srcB) 20).2.map
        (Transfer.materialize srcB
          (imageRowWidth tex0.desc * tex0.desc.height)) :=
  (upload_unaligned_equiv tex0 slice0 fullRange0 srcA srcB 20 rfl (by decide)
    (by decide) rfl (by decide)).2.2

end Igl
